import Mathlib

/-!
Verification development for the job-market-analytics ETL pipeline.

The repository has three stages, embedded shallowly below:
- `src/api_client.py`: `JSearchClient` fetches paginated job listings with a
  single fixed-delay retry on HTTP 429, per-page error classification, and a
  JSON dump of the raw records (`json.dump(..., indent=2)`).
- `src/data_cleaning.py`: column rename mapping, numeric salary fields with
  derived `avg_salary`/`salary_range`, regex-based skill extraction into a
  `skills` list plus one `has_<category>` boolean per category, state-name
  standardization and a `location_standardized` string.
- `src/data_validation.py`: drop rows missing `id`/`title`, drop duplicate
  ids keeping the first occurrence, a salary-logic check that only counts
  violations of `min_salary <= max_salary`, and a `seniority_level` column
  computed by keyword search over the lower-cased title.

Machine integers do not occur (Python ints are unbounded; HTTP statuses are
small naturals); pandas NaN-able numeric columns are embedded as `Option ℚ`
with the pandas comparison semantics (any comparison against NaN is false),
and NaN-able string columns as `Option String`.
-/

/-! ### JSON values (the payload of `raw_jobs.json` and `json.dump`)

Python's `json.dump` serializes nested lists/dicts; the mutual inductive
keeps the recursion structural so that the serializer evaluates in the
kernel. -/

mutual
inductive JVal where
  | str (s : String)
  | num (n : Int)
  | jbool (b : Bool)
  | null
  | arr (xs : JArr)
  | obj (fields : JObj)
  deriving DecidableEq

inductive JArr where
  | nil
  | cons (v : JVal) (rest : JArr)
  deriving DecidableEq

inductive JObj where
  | nil
  | cons (key : String) (v : JVal) (rest : JObj)
  deriving DecidableEq
end

/-- Hexadecimal digit for `\u00XX` escapes (lower case, as Python emits). -/
def hexDigit (n : Nat) : Char :=
  if n < 10 then Char.ofNat ('0'.toNat + n) else Char.ofNat ('a'.toNat + n - 10)

/-- Escaping of one character inside a JSON string literal, following
`json.dump` with `ensure_ascii=False`: only the quote, the backslash and
control characters are escaped; everything else is written verbatim. -/
def escapeChar (c : Char) : String :=
  if c = '"' then "\\\""
  else if c = '\\' then "\\\\"
  else if c = '\n' then "\\n"
  else if c = '\t' then "\\t"
  else if c = '\r' then "\\r"
  else if c.toNat = 8 then "\\b"
  else if c.toNat = 12 then "\\f"
  else if c.toNat < 32 then "\\u00" ++ String.mk [hexDigit (c.toNat / 16), hexDigit (c.toNat % 16)]
  else String.mk [c]

def escapeStr (s : String) : String := String.join (s.data.map escapeChar)

/-- Indentation padding: `json.dump(..., indent=2)` indents nesting level
`lvl` by `2*lvl` spaces. -/
def pad (n : Nat) : String := String.mk (List.replicate n ' ')

/-! Serializer for `json.dump(value, f, indent=2, ensure_ascii=False)`:
a non-empty array is written as `[` newline, the comma-newline-separated
indented items, a newline and the closing bracket at the enclosing level;
likewise for objects with `"key": value` fields; empty containers are
written inline. -/

mutual
def dumpVal (lvl : Nat) : JVal → String
  | .str s => "\"" ++ escapeStr s ++ "\""
  | .num n => toString n
  | .jbool true => "true"
  | .jbool false => "false"
  | .null => "null"
  | .arr .nil => "[]"
  | .arr xs => "[\n" ++ dumpItems (lvl+1) xs ++ "\n" ++ pad (2*lvl) ++ "]"
  | .obj .nil => "\x7b\x7d"
  | .obj fs => "\x7b\n" ++ dumpFields (lvl+1) fs ++ "\n" ++ pad (2*lvl) ++ "\x7d"

def dumpItems (lvl : Nat) : JArr → String
  | .nil => ""
  | .cons x .nil => pad (2*lvl) ++ dumpVal lvl x
  | .cons x (.cons y ys) => pad (2*lvl) ++ dumpVal lvl x ++ ",\n" ++ dumpItems lvl (.cons y ys)

def dumpFields (lvl : Nat) : JObj → String
  | .nil => ""
  | .cons k v .nil => pad (2*lvl) ++ "\"" ++ escapeStr k ++ "\": " ++ dumpVal lvl v
  | .cons k v (.cons k2 v2 gs) =>
      pad (2*lvl) ++ "\"" ++ escapeStr k ++ "\": " ++ dumpVal lvl v ++ ",\n" ++
        dumpFields lvl (.cons k2 v2 gs)
end

/-- `JSearchClient.save_jobs_to_json` (src/api_client.py:120-127): the list of
raw job records is written with `json.dump(jobs, f, indent=2,
ensure_ascii=False)`. The model returns the file content as a string (the
`IOError` handler only logs, it never re-raises). -/
def save_jobs_to_json (jobs : JArr) : String := dumpVal 0 (.arr jobs)

/-! ### The API client (src/api_client.py)

The HTTP transport is the out-of-scope collaborator: for each issued GET the
environment supplies a `PageEvent` — a response with a status code and a
body (`some jobs` when `response.json()` parses and `data.get('data', [])`
yields that list, `none` when the body is malformed JSON), or one of the
`requests` exceptions caught by the loop. A page is modelled as the pair of
the first response and the response a single retry would receive. Job
records are opaque (`J`). -/

inductive PageEvent (J : Type) where
  | resp (status : Nat) (body : Option (List J))
  | timeout
  | connError
  | reqError

inductive StepResult (J : Type) where
  | ok (jobs : List J)
  | failed
  | abort
  | stop

def statusOf {J : Type} : PageEvent J → Option Nat
  | .resp s _ => some s
  | _ => none

/-- Truthiness of `os.getenv` results: Python treats `None` and the empty
string as falsy in `if not self.api_key or not self.api_host`. -/
def envTruthy : Option String → Bool
  | none => false
  | some s => !(s == "")

structure JSearchClient where
  api_key : String
  api_host : String

/-- `JSearchClient.__init__` (src/api_client.py:13-20): raises `ValueError`
when either credential is missing (falsy). -/
def JSearchClient.init (key host : Option String) : Except String JSearchClient :=
  if envTruthy key = false || envTruthy host = false then
    .error "API credentials not found in .env file"
  else
    .ok { api_key := key.getD "", api_host := host.getD "" }

/-- The fetch of one page (src/api_client.py:53-71): one GET; if its status
is 429 the client sleeps 2 seconds and re-issues the identical request once.
Returns the response that reaches the status checks, the number of GETs
issued, and the seconds slept before the retry. -/
def fetchPage {J : Type} (p : PageEvent J × PageEvent J) : PageEvent J × Nat × Nat :=
  if statusOf p.1 = some 429 then (p.2, 2, 2) else (p.1, 1, 0)

/-- The status checks (src/api_client.py:74-106): 200 with well-formed JSON
extends the job list, 200 with malformed JSON fails the page, 401 raises,
403 breaks out of the pagination loop, any other status fails the page, and
each caught `requests` exception fails the page. -/
def classifyStatus {J : Type} (e : PageEvent J) : StepResult J :=
  match e with
  | .resp s b =>
      if s = 200 then
        match b with
        | some jobs => .ok jobs
        | none => .failed
      else if s = 401 then .abort
      else if s = 403 then .stop
      else .failed
  | .timeout => .failed
  | .connError => .failed
  | .reqError => .failed

def classifyPage {J : Type} (p : PageEvent J × PageEvent J) : StepResult J :=
  classifyStatus (fetchPage p).1

/-- The pagination loop of `search_jobs` (src/api_client.py:44-118) over
pages `p, p+1, ...` with `n` pages left, carrying `all_jobs` and
`failed_pages`. -/
def searchFrom {J : Type} (env : Nat → PageEvent J × PageEvent J) :
    Nat → Nat → List J → List Nat → Except String (List J × List Nat)
  | _, 0, jobs, failed => .ok (jobs, failed)
  | p, n+1, jobs, failed =>
    match classifyPage (env p) with
    | .ok newJobs => searchFrom env (p+1) n (jobs ++ newJobs) failed
    | .failed => searchFrom env (p+1) n jobs (failed ++ [p])
    | .abort => .error "Invalid API credentials"
    | .stop => .ok (jobs, failed)

/-- `JSearchClient.search_jobs(query, num_pages, page)`: fetches pages
`page, ..., page + num_pages - 1` for the query, starting from empty
`all_jobs` and `failed_pages`. -/
def search_jobs {J : Type} (fetch : String → Nat → PageEvent J × PageEvent J)
    (query : String) (numPages page : Nat) : Except String (List J × List Nat) :=
  searchFrom (fetch query) page numPages [] []

def exceptIsError {ε α : Type} : Except ε α → Bool
  | .error _ => true
  | .ok _ => false

/-! ### String helpers (Python `str.lower`, `in`, `str.replace`) -/

def lowerStr (s : String) : String := String.mk (s.data.map Char.toLower)

def isPrefixChars : List Char → List Char → Bool
  | [], _ => true
  | _ :: _, [] => false
  | a :: as, b :: bs => a = b && isPrefixChars as bs

def containsAux (needle : List Char) : List Char → Bool
  | [] => isPrefixChars needle []
  | hay@(_ :: rest) => isPrefixChars needle hay || containsAux needle rest

/-- Python's substring test `needle in hay`. -/
def strContains (hay needle : String) : Bool := containsAux needle.data hay.data

/-- Python `s.replace(" ", "_")` for the single-character pattern. -/
def underscoreSpaces (s : String) : String :=
  String.mk (s.data.map (fun c => if c = ' ' then '_' else c))

/-! ### Column rename mapping (src/data_cleaning.py:29-55) -/

def rename_mapping : List (String × String) :=
  [("job_id", "id"),
   ("job_title", "title"),
   ("job_description", "description"),
   ("job_location", "location"),
   ("job_city", "city"),
   ("job_state", "state"),
   ("job_country", "country"),
   ("job_latitude", "latitude"),
   ("job_longitude", "longitude"),
   ("job_is_remote", "is_remote"),
   ("job_employment_type", "employment_type"),
   ("job_publisher", "publisher"),
   ("job_apply_link", "apply_link"),
   ("job_apply_is_direct", "apply_is_direct"),
   ("job_google_link", "google_link"),
   ("job_min_salary", "min_salary"),
   ("job_max_salary", "max_salary"),
   ("job_salary_period", "salary_period"),
   ("job_onet_soc", "onet_soc"),
   ("job_onet_job_zone", "onet_job_zone"),
   ("job_posted_at", "posted_at_relative"),
   ("job_posted_at_datetime_utc", "posted_at"),
   ("job_posted_at_timestamp", "posted_at_timestamp")]

/-- `df.rename(columns=rename_mapping)`: a column named in the mapping is
replaced by its target; any other column name passes through unchanged. -/
def renameColumn (c : String) : String := (List.lookup c rename_mapping).getD c

/-! ### Deduplication (src/data_validation.py:107-117)

`df.drop_duplicates(subset=['id'], keep='first')`: scan the rows in table
order, keep a row when its key has not been seen, drop it otherwise.
pandas treats two NaN keys as duplicates of each other, hence keys compare
as `Option` values. -/

def dropDupAux {α κ : Type} [DecidableEq κ] (key : α → κ) : List α → List κ → List α
  | [], _ => []
  | r :: rs, seen =>
    if key r ∈ seen then dropDupAux key rs seen
    else r :: dropDupAux key rs (key r :: seen)

def drop_duplicates {α κ : Type} [DecidableEq κ] (key : α → κ) (rows : List α) : List α :=
  dropDupAux key rows []

/-! ### Seniority categorization (src/data_validation.py:207-228) -/

def executive_keywords : List String :=
  ["ceo", "cfo", "coo", "cto", "chief", "president", "vp", "vice president",
   "director", "principal"]

def senior_keywords : List String :=
  ["senior", "sr.", "sr ", "lead", "principal", "staff", "manager"]

def mid_keywords : List String :=
  ["mid", "mid-level", "analyst", "engineer", "specialist", "coordinator"]

def junior_keywords : List String :=
  ["junior", "jr.", "jr ", "entry", "entry-level", "associate", "intern", "apprentice"]

/-- `SENIORITY_KEYWORDS` in Python-3.7+ dict insertion order. -/
def SENIORITY_KEYWORDS : List (String × List String) :=
  [("Executive", executive_keywords),
   ("Senior", senior_keywords),
   ("Mid", mid_keywords),
   ("Junior", junior_keywords)]

/-- Some keyword of the level occurs as a substring of the lower-cased
title. -/
def levelMatches (kws : List String) (tl : String) : Bool :=
  kws.any (fun k => strContains tl k)

/-- The inner double loop of `categorize_seniority`: the first level, in
dict order, one of whose keywords occurs in the lower-cased title. -/
def findLevel : List (String × List String) → String → Option String
  | [], _ => none
  | (lv, kws) :: rest, tl =>
    if levelMatches kws tl then some lv else findLevel rest tl

def anyLevelMatches (tl : String) : Bool :=
  SENIORITY_KEYWORDS.any (fun p => levelMatches p.2 tl)

/-- `categorize_seniority(title)`: `'Unknown'` for a missing title,
otherwise the first matching level, defaulting to `'Mid'`. -/
def categorize_seniority : Option String → String
  | none => "Unknown"
  | some t => (findLevel SENIORITY_KEYWORDS (lowerStr t)).getD "Mid"

/-! ### Regular-expression matching for skill extraction
(src/data_cleaning.py:111-166)

The patterns in `SKILL_CATEGORIES` use only: literal characters, the word
boundary `\b`, the whitespace class `\s` (also `\s+` and `\s*`), the
optional class `[\s-]?`, and one top-level alternation `(?:...|...)` which
is expanded into two alternative patterns. `re.search` succeeds when the
pattern matches at some position of the text. -/

inductive RE where
  | lit (c : Char)
  | wordB
  | wsOne
  | wsStar
  | wsDashOpt

def isWordChar (c : Char) : Bool := c.isAlphanum || c = '_'

def isSpaceChar (c : Char) : Bool := c.isWhitespace

/-- A `\b` position: exactly one of the neighbouring characters is a word
character (text start/end counts as a non-word neighbour). -/
def isBoundary (prev next : Option Char) : Bool :=
  (match prev with | none => false | some c => isWordChar c) !=
  (match next with | none => false | some c => isWordChar c)

def matchRE : List RE → Option Char → List Char → Bool
  | [], _, _ => true
  | .lit c :: re, _, d :: s => d = c && matchRE re (some d) s
  | .lit _ :: _, _, [] => false
  | .wordB :: re, prev, s => isBoundary prev s.head? && matchRE re prev s
  | .wsOne :: re, _, d :: s => isSpaceChar d && matchRE re (some d) s
  | .wsOne :: _, _, [] => false
  | .wsDashOpt :: re, prev, s =>
      matchRE re prev s ||
        (match s with
         | d :: s2 => (isSpaceChar d || d = '-') && matchRE re (some d) s2
         | [] => false)
  | .wsStar :: re, prev, s =>
      matchRE re prev s ||
        (match s with
         | d :: s2 => isSpaceChar d && matchRE (.wsStar :: re) (some d) s2
         | [] => false)
  termination_by re _ s => (s.length, re.length)

def searchFromPos (re : List RE) : Option Char → List Char → Bool
  | prev, s =>
    matchRE re prev s ||
      (match s with
       | [] => false
       | d :: s2 => searchFromPos re (some d) s2)

/-- `re.search(pattern, text)` as a Boolean. -/
def reSearch (re : List RE) (text : String) : Bool := searchFromPos re none text.data

def litStr (s : String) : List RE := s.data.map RE.lit

def wb : List RE := [RE.wordB]

/-- `SKILL_CATEGORIES` (src/data_cleaning.py:111-151): category name, then
skill name with its pattern as a list of alternatives. -/
def SKILL_CATEGORIES : List (String × List (String × List (List RE))) :=
  [("Programming Languages",
    [("Python", [wb ++ litStr "python" ++ wb]),
     ("R", [wb ++ litStr "r" ++ [RE.wsOne, RE.wsStar] ++ litStr "programming",
            wb ++ litStr "r" ++ [RE.wsOne] ++ litStr "language"]),
     ("SQL", [wb ++ litStr "sql" ++ wb]),
     ("Java", [wb ++ litStr "java" ++ wb]),
     ("JavaScript", [wb ++ litStr "javascript" ++ wb]),
     ("C++", [wb ++ litStr "c++" ++ wb]),
     ("C#", [wb ++ litStr "c#" ++ wb]),
     ("VBA", [wb ++ litStr "vba" ++ wb])]),
   ("Data Tools & Platforms",
    [("Tableau", [wb ++ litStr "tableau" ++ wb]),
     ("Power BI", [wb ++ litStr "power" ++ [RE.wsStar] ++ litStr "bi" ++ wb]),
     ("Excel", [wb ++ litStr "excel" ++ wb]),
     ("Jupyter", [wb ++ litStr "jupyter" ++ wb]),
     ("Hadoop", [wb ++ litStr "hadoop" ++ wb]),
     ("Spark", [wb ++ litStr "spark" ++ wb])]),
   ("Databases",
    [("PostgreSQL", [wb ++ litStr "postgresql" ++ wb]),
     ("MySQL", [wb ++ litStr "mysql" ++ wb]),
     ("MongoDB", [wb ++ litStr "mongodb" ++ wb]),
     ("Oracle", [wb ++ litStr "oracle" ++ wb]),
     ("SQL Server", [wb ++ litStr "sql" ++ [RE.wsStar] ++ litStr "server" ++ wb])]),
   ("Soft Skills",
    [("Communication", [wb ++ litStr "communication" ++ wb]),
     ("Leadership", [wb ++ litStr "leadership" ++ wb]),
     ("Problem Solving", [wb ++ litStr "problem" ++ [RE.wsDashOpt] ++ litStr "solving" ++ wb]),
     ("Collaboration", [wb ++ litStr "collaboration" ++ wb]),
     ("Project Management", [wb ++ litStr "project" ++ [RE.wsStar] ++ litStr "management" ++ wb])]),
   ("Analysis & Statistics",
    [("Statistical Analysis", [wb ++ litStr "statistical" ++ [RE.wsStar] ++ litStr "analysis" ++ wb]),
     ("Data Analysis", [wb ++ litStr "data" ++ [RE.wsStar] ++ litStr "analysis" ++ wb]),
     ("Predictive Modeling", [wb ++ litStr "predictive" ++ [RE.wsStar] ++ litStr "modeling" ++ wb]),
     ("Machine Learning", [wb ++ litStr "machine" ++ [RE.wsStar] ++ litStr "learning" ++ wb]),
     ("Data Visualization", [wb ++ litStr "data" ++ [RE.wsStar] ++ litStr "visualization" ++ wb])])]

def patMatches (alts : List (List RE)) (text : String) : Bool :=
  alts.any (fun re => reSearch re text)

/-- `extract_skills(text)` (src/data_cleaning.py:153-166): `[]` for a
missing description, otherwise the skill names whose pattern matches the
lower-cased text, in category-then-skill order. -/
def extract_skills (text : Option String) : List String :=
  match text with
  | none => []
  | some t =>
    (SKILL_CATEGORIES.map
      (fun cat => (cat.2.filter (fun sp => patMatches sp.2 (lowerStr t))).map Prod.fst)).flatten

/-- Column name `has_<category>` (src/data_cleaning.py:186):
`f'has_{category.lower().replace(" ", "_")}'`. -/
def categoryColName (category : String) : String :=
  "has_" ++ underscoreSpaces (lowerStr category)

/-- One `has_<category>` flag (src/data_cleaning.py:187-189): some extracted
skill is a key of the category's dict. -/
def hasCategorySkill (cat : List (String × List (List RE))) (skills : List String) : Bool :=
  skills.any (fun s => cat.any (fun p => p.1 == s))

/-! ### State standardization and location (src/data_cleaning.py:213-274) -/

def STATE_ABBREVIATIONS : List (String × String) :=
  [("AL", "Alabama"), ("AK", "Alaska"), ("AZ", "Arizona"), ("AR", "Arkansas"),
   ("CA", "California"), ("CO", "Colorado"), ("CT", "Connecticut"), ("DE", "Delaware"),
   ("FL", "Florida"), ("GA", "Georgia"), ("HI", "Hawaii"), ("ID", "Idaho"),
   ("IL", "Illinois"), ("IN", "Indiana"), ("IA", "Iowa"), ("KS", "Kansas"),
   ("KY", "Kentucky"), ("LA", "Louisiana"), ("ME", "Maine"), ("MD", "Maryland"),
   ("MA", "Massachusetts"), ("MI", "Michigan"), ("MN", "Minnesota"), ("MS", "Mississippi"),
   ("MO", "Missouri"), ("MT", "Montana"), ("NE", "Nebraska"), ("NV", "Nevada"),
   ("NH", "New Hampshire"), ("NJ", "New Jersey"), ("NM", "New Mexico"), ("NY", "New York"),
   ("NC", "North Carolina"), ("ND", "North Dakota"), ("OH", "Ohio"), ("OK", "Oklahoma"),
   ("OR", "Oregon"), ("PA", "Pennsylvania"), ("RI", "Rhode Island"), ("SC", "South Carolina"),
   ("SD", "South Dakota"), ("TN", "Tennessee"), ("TX", "Texas"), ("UT", "Utah"),
   ("VT", "Vermont"), ("VA", "Virginia"), ("WA", "Washington"), ("WV", "West Virginia"),
   ("WI", "Wisconsin"), ("WY", "Wyoming")]

/-- `df['state'].replace(STATE_ABBREVIATIONS)` on one value. -/
def standardizeState (s : String) : String := (List.lookup s STATE_ABBREVIATIONS).getD s

/-! ### The cleaned table (src/data_cleaning.py) -/

structure RawJob where
  job_id : Option String
  job_title : Option String
  job_description : Option String
  job_city : Option String
  job_state : Option String
  job_min_salary : Option ℚ
  job_max_salary : Option ℚ
  deriving DecidableEq

structure JobRow where
  id : Option String
  title : Option String
  description : Option String
  city : Option String
  state : Option String
  min_salary : Option ℚ
  max_salary : Option ℚ
  avg_salary : Option ℚ
  salary_range : Option ℚ
  skills : List String
  has_flags : List (String × Bool)
  location_standardized : Option String
  deriving DecidableEq

/-- `df['avg_salary'] = (df['max_salary'] + df['min_salary']) / 2`
(src/data_cleaning.py:88) with pandas NaN propagation. -/
def avgSalaryOf (mn mx : Option ℚ) : Option ℚ :=
  match mn, mx with
  | some a, some b => some ((b + a) / 2)
  | _, _ => none

/-- `df['salary_range'] = df['max_salary'] - df['min_salary']`
(src/data_cleaning.py:92) with pandas NaN propagation. -/
def salaryRangeOf (mn mx : Option ℚ) : Option ℚ :=
  match mn, mx with
  | some a, some b => some (b - a)
  | _, _ => none

/-- `f"{row['city']}, {row['state']}"` when both are present, else `None`
(src/data_cleaning.py:271-274). -/
def locationStandardized (city state : Option String) : Option String :=
  match city, state with
  | some c, some st => some (c ++ ", " ++ st)
  | _, _ => none

/-- The cleaning stage on one record: rename (the `job_` fields land in the
renamed columns), derived salary fields, skill extraction with the five
`has_<category>` flags, state standardization and the location string. -/
def cleanRow (r : RawJob) : JobRow :=
  let skills := extract_skills r.job_description
  { id := r.job_id
    title := r.job_title
    description := r.job_description
    city := r.job_city
    state := r.job_state.map standardizeState
    min_salary := r.job_min_salary
    max_salary := r.job_max_salary
    avg_salary := avgSalaryOf r.job_min_salary r.job_max_salary
    salary_range := salaryRangeOf r.job_min_salary r.job_max_salary
    skills := skills
    has_flags := SKILL_CATEGORIES.map
      (fun cat => (categoryColName cat.1, hasCategorySkill cat.2 skills))
    location_standardized :=
      locationStandardized r.job_city (r.job_state.map standardizeState) }

def cleanTable (raws : List RawJob) : List JobRow := raws.map cleanRow

/-! ### The validation stage (src/data_validation.py) -/

structure ValidatedRow extends JobRow where
  seniority_level : String
  deriving DecidableEq

/-- pandas `min_salary > max_salary` on one row: false whenever either side
is NaN. -/
def salaryGtB (mn mx : Option ℚ) : Bool :=
  match mn, mx with
  | some a, some b => decide (b < a)
  | _, _ => false

/-- `salary_errors` (src/data_validation.py:130-131): restrict to rows with
`min_salary` present, then count rows with `min_salary > max_salary`. -/
def salary_errors (rows : List JobRow) : Nat :=
  ((rows.filter (fun r => r.min_salary.isSome)).filter
    (fun r => salaryGtB r.min_salary r.max_salary)).length

/-- `salary_errors` as recomputed in the cleaning stage without the
pre-filter (src/data_cleaning.py:306). -/
def salary_errors_cleaning (rows : List JobRow) : Nat :=
  (rows.filter (fun r => salaryGtB r.min_salary r.max_salary)).length

inductive SalaryCheckResult where
  | warn (count : Nat)
  | pass
  deriving DecidableEq

/-- The salary-logic validation step (src/data_validation.py:126-141): a
warning carrying the count when violations exist, a pass otherwise; there is
no raising branch. -/
def salaryLogicCheck (rows : List JobRow) : SalaryCheckResult :=
  if 0 < salary_errors rows then .warn (salary_errors rows) else .pass

def validateRow (r : JobRow) : ValidatedRow :=
  { toJobRow := r, seniority_level := categorize_seniority r.title }

/-- The validation pipeline (src/data_validation.py): drop rows with missing
`id` or `title`, drop duplicate ids keeping the first occurrence (applied
only when `duplicated().sum() > 0`, which changes nothing when it is 0), and
add the `seniority_level` column. The skill-flag fill with `False` is the
identity here because the flags are total Booleans in the model. -/
def validateTable (rows : List JobRow) : List ValidatedRow :=
  let kept := rows.filter (fun r => r.id.isSome && r.title.isSome)
  let dups := kept.length - (drop_duplicates (fun r => r.id) kept).length
  let deduped := if 0 < dups then drop_duplicates (fun r => r.id) kept else kept
  deduped.map validateRow

/-- The table written to `validated_jobs.csv` (src/data_validation.py:298). -/
def validatedCsvTable (raws : List RawJob) : List ValidatedRow :=
  validateTable (cleanTable raws)

/-- The table written to `validated_jobs.json` (src/data_validation.py:305):
`to_json` is called on the same `df_validated` as `to_csv`. -/
def validatedJsonTable (raws : List RawJob) : List ValidatedRow :=
  validateTable (cleanTable raws)

/-- A concrete raw record used to instantiate hypotheses. -/
def sampleRaw : RawJob :=
  { job_id := some "1"
    job_title := some "Data Analyst"
    job_description := none
    job_city := none
    job_state := none
    job_min_salary := none
    job_max_salary := none }

/-! ## Helper lemmas -/

theorem lookup_eq_none_of_not_mem_keys :
    ∀ (l : List (String × String)) (c : String),
      c ∉ l.map Prod.fst → List.lookup c l = none := by
  intro l
  induction l with
  | nil => intro c _; rfl
  | cons hd rest ih =>
    obtain ⟨k, v⟩ := hd
    intro c hc
    rw [List.map_cons, List.mem_cons, not_or] at hc
    obtain ⟨h1, h2⟩ := hc
    have h1' : c ≠ k := by simpa using h1
    have hb : (c == k) = false := by simp [h1']
    simp only [List.lookup, hb]
    exact ih c h2

theorem lookup_mem :
    ∀ (l : List (String × String)) (c v : String),
      List.lookup c l = some v → (c, v) ∈ l := by
  intro l
  induction l with
  | nil => intro c v h; simp [List.lookup] at h
  | cons hd rest ih =>
    obtain ⟨k, w⟩ := hd
    intro c v h
    by_cases hb : c = k
    · subst hb
      have : (c == c) = true := by simp
      simp [List.lookup, this] at h
      simp [h]
    · have hbf : (c == k) = false := by simp [hb]
      simp [List.lookup, hbf] at h
      exact List.mem_cons_of_mem _ (ih c v h)

theorem mem_keys_lookup :
    ∀ (l : List (String × String)) (c : String),
      c ∈ l.map Prod.fst → ∃ v, List.lookup c l = some v := by
  intro l
  induction l with
  | nil => intro c h; simp at h
  | cons hd rest ih =>
    obtain ⟨k, w⟩ := hd
    intro c hc
    by_cases hb : c = k
    · subst hb
      have : (c == c) = true := by simp
      exact ⟨w, by simp [List.lookup, this]⟩
    · have hbf : (c == k) = false := by simp [hb]
      have hc' : c ∈ rest.map Prod.fst := by
        rcases by simpa using hc with h | h
        · exact absurd h hb
        · simpa using h
      obtain ⟨v, hv⟩ := ih c hc'
      exact ⟨v, by simp [List.lookup, hbf, hv]⟩

theorem dropDupAux_sublist {α κ : Type} [DecidableEq κ] (key : α → κ) :
    ∀ (rows : List α) (seen : List κ), List.Sublist (dropDupAux key rows seen) rows := by
  intro rows
  induction rows with
  | nil => intro seen; simp [dropDupAux]
  | cons r rs ih =>
    intro seen
    by_cases h : key r ∈ seen
    · simp only [dropDupAux, if_pos h]
      exact List.Sublist.cons r (ih seen)
    · simp only [dropDupAux, if_neg h]
      exact List.Sublist.cons₂ r (ih (key r :: seen))

theorem dropDupAux_find? {α κ : Type} [DecidableEq κ] (key : α → κ) :
    ∀ (rows : List α) (seen : List κ) (k : κ), k ∉ seen →
      (dropDupAux key rows seen).find? (fun r => decide (key r = k))
        = rows.find? (fun r => decide (key r = k)) := by
  intro rows
  induction rows with
  | nil => intro seen k _; rfl
  | cons r rs ih =>
    intro seen k hk
    by_cases hm : key r ∈ seen
    · have hne : (decide (key r = k)) = false := by
        simp only [decide_eq_false_iff_not]
        intro h; exact hk (h ▸ hm)
      simp only [dropDupAux, if_pos hm, List.find?, hne]
      exact ih seen k hk
    · simp only [dropDupAux, if_neg hm]
      by_cases he : key r = k
      · have ht : (decide (key r = k)) = true := by simp [he]
        simp [List.find?, ht]
      · have hf : (decide (key r = k)) = false := by simp [he]
        simp only [List.find?, hf]
        refine ih (key r :: seen) k ?_
        intro hc
        rcases List.mem_cons.mp hc with h | h
        · exact he h.symm
        · exact hk h

theorem dropDupAux_key_not_seen {α κ : Type} [DecidableEq κ] (key : α → κ) :
    ∀ (rows : List α) (seen : List κ) (x : α),
      x ∈ dropDupAux key rows seen → key x ∉ seen := by
  intro rows
  induction rows with
  | nil => intro seen x h; simp [dropDupAux] at h
  | cons r rs ih =>
    intro seen x hx
    by_cases hm : key r ∈ seen
    · rw [dropDupAux, if_pos hm] at hx
      exact ih seen x hx
    · rw [dropDupAux, if_neg hm] at hx
      rcases List.mem_cons.mp hx with h | h
      · subst h; exact hm
      · have := ih (key r :: seen) x h
        intro hc; exact this (List.mem_cons_of_mem _ hc)

theorem dropDupAux_keys_nodup {α κ : Type} [DecidableEq κ] (key : α → κ) :
    ∀ (rows : List α) (seen : List κ), ((dropDupAux key rows seen).map key).Nodup := by
  intro rows
  induction rows with
  | nil => intro seen; simp [dropDupAux]
  | cons r rs ih =>
    intro seen
    by_cases hm : key r ∈ seen
    · rw [dropDupAux, if_pos hm]; exact ih seen
    · rw [dropDupAux, if_neg hm]
      rw [List.map_cons, List.nodup_cons]
      constructor
      · intro hc
        obtain ⟨x, hx, hkx⟩ := List.mem_map.mp hc
        have := dropDupAux_key_not_seen key rs (key r :: seen) x hx
        exact this (by simp [hkx])
      · exact ih (key r :: seen)

theorem dropDupAux_idem {α κ : Type} [DecidableEq κ] (key : α → κ) :
    ∀ (rows : List α) (seen : List κ),
      dropDupAux key (dropDupAux key rows seen) seen = dropDupAux key rows seen := by
  intro rows
  induction rows with
  | nil => intro seen; rfl
  | cons r rs ih =>
    intro seen
    by_cases hm : key r ∈ seen
    · rw [dropDupAux, if_pos hm]; exact ih seen
    · rw [dropDupAux, if_neg hm]
      show dropDupAux key (r :: dropDupAux key rs (key r :: seen)) seen = _
      rw [dropDupAux, if_neg hm]
      congr 1
      have step : dropDupAux key (dropDupAux key rs (key r :: seen)) (key r :: seen)
          = dropDupAux key rs (key r :: seen) := ih (key r :: seen)
      exact step

/-- C4: the field-rename mapping of the cleaning stage has 23 known source
keys, is injective on them (its targets are pairwise distinct, so it is a
bijection onto its target set), maps each known key to its listed target,
and leaves every column name outside the key set unchanged. -/
theorem rename_mapping_bijection :
    rename_mapping.length = 23
  ∧ (rename_mapping.map Prod.fst).Nodup
  ∧ (rename_mapping.map Prod.snd).Nodup
  ∧ (∀ c, c ∈ rename_mapping.map Prod.fst → (c, renameColumn c) ∈ rename_mapping)
  ∧ (∀ c, c ∉ rename_mapping.map Prod.fst → renameColumn c = c) := by
  refine ⟨rfl, by decide, by decide, ?_, ?_⟩
  · intro c hc
    obtain ⟨v, hv⟩ := mem_keys_lookup rename_mapping c hc
    have hr : renameColumn c = v := by simp [renameColumn, hv]
    rw [hr]
    exact lookup_mem _ _ _ hv
  · intro c hc
    simp [renameColumn, lookup_eq_none_of_not_mem_keys rename_mapping c hc]

/-- Witness for C4 at concrete column names: the known key `job_id` maps to
its listed target, and the unknown column `employer_name` passes through. -/
theorem rename_mapping_bijection_witness :
    ("job_id", renameColumn "job_id") ∈ rename_mapping
  ∧ renameColumn "employer_name" = "employer_name" :=
  ⟨rename_mapping_bijection.2.2.2.1 "job_id" (by decide),
   rename_mapping_bijection.2.2.2.2 "employer_name" (by decide)⟩

/-- C5: deduplication by the identifier column keeps, for each identifier
value, the first row in table order (the first match for any id is unchanged
by deduplication) and drops every later row with the same identifier (the
output ids are pairwise distinct and the output is a sublist of the input);
it is idempotent: a second pass removes zero rows, for every input table. -/
theorem drop_duplicates_keeps_first :
    (∀ rows : List JobRow, List.Sublist (drop_duplicates (fun r => r.id) rows) rows)
  ∧ (∀ (rows : List JobRow) (k : Option String),
      (drop_duplicates (fun r => r.id) rows).find? (fun r => decide (r.id = k))
        = rows.find? (fun r => decide (r.id = k)))
  ∧ (∀ rows : List JobRow, ((drop_duplicates (fun r => r.id) rows).map (fun r => r.id)).Nodup)
  ∧ (∀ rows : List JobRow,
      drop_duplicates (fun r => r.id) (drop_duplicates (fun r => r.id) rows)
        = drop_duplicates (fun r => r.id) rows) := by
  refine ⟨?_, ?_, ?_, ?_⟩
  · intro rows; exact dropDupAux_sublist _ rows []
  · intro rows k
    exact dropDupAux_find? _ rows [] k (by simp)
  · intro rows; exact dropDupAux_keys_nodup _ rows []
  · intro rows; exact dropDupAux_idem _ rows []

/-- C7: the salary-logic validation is a total function into a
warning-or-pass outcome (there is no raising branch). The counted violations
are exactly the rows whose `min_salary` and `max_salary` are both present
with `min > max`; rows with missing salary values are never counted (pandas
comparisons against NaN are false), the count never exceeds the table
length, and the check warns exactly when the count is positive. The
cleaning-stage recount without the notna pre-filter agrees. -/
theorem salary_check_only_warns :
    (∀ rows : List JobRow,
        salary_errors rows = rows.countP (fun r => salaryGtB r.min_salary r.max_salary))
  ∧ (∀ rows : List JobRow,
        salary_errors_cleaning rows
          = rows.countP (fun r => salaryGtB r.min_salary r.max_salary))
  ∧ (∀ mn mx : Option ℚ,
        salaryGtB mn mx = true ↔ ∃ a b, mn = some a ∧ mx = some b ∧ b < a)
  ∧ (∀ rows : List JobRow, salary_errors rows ≤ rows.length)
  ∧ (∀ rows : List JobRow, salaryLogicCheck rows = .pass ↔ salary_errors rows = 0)
  ∧ (∀ rows : List JobRow,
        salaryLogicCheck rows = .warn (salary_errors rows)
          ∨ salaryLogicCheck rows = .pass) := by
  have hand : ∀ r : JobRow,
      (salaryGtB r.min_salary r.max_salary && r.min_salary.isSome)
        = salaryGtB r.min_salary r.max_salary := by
    intro r
    cases hmn : r.min_salary <;> simp [salaryGtB, hmn]
  have h1 : ∀ rows : List JobRow,
      salary_errors rows = rows.countP (fun r => salaryGtB r.min_salary r.max_salary) := by
    intro rows
    rw [salary_errors, List.filter_filter, ← List.countP_eq_length_filter]
    exact List.countP_congr (fun r _ => by rw [hand r])
  refine ⟨h1, ?_, ?_, ?_, ?_, ?_⟩
  · intro rows
    rw [salary_errors_cleaning, ← List.countP_eq_length_filter]
  · intro mn mx
    cases mn <;> cases mx <;> simp [salaryGtB]
  · intro rows
    rw [h1]
    exact List.countP_le_length _
  · intro rows
    by_cases h : 0 < salary_errors rows <;> simp [salaryLogicCheck, h] <;> omega
  · intro rows
    by_cases h : 0 < salary_errors rows <;> simp [salaryLogicCheck, h]

theorem findLevel_eq_none_iff (tl : String) :
    ∀ L : List (String × List String),
      findLevel L tl = none ↔ L.any (fun p => levelMatches p.2 tl) = false := by
  intro L
  induction L with
  | nil => simp [findLevel]
  | cons hd rest ih =>
    obtain ⟨lv, kws⟩ := hd
    cases h : levelMatches kws tl <;> simp [findLevel, h, ih]

theorem findLevel_mem (tl : String) :
    ∀ (L : List (String × List String)) (lv : String), findLevel L tl = some lv →
      ∃ kws, (lv, kws) ∈ L ∧ levelMatches kws tl = true := by
  intro L
  induction L with
  | nil => intro lv h; simp [findLevel] at h
  | cons hd rest ih =>
    obtain ⟨lv0, kws0⟩ := hd
    intro lv h
    cases hm : levelMatches kws0 tl with
    | true =>
      rw [findLevel, if_pos hm] at h
      have : lv0 = lv := by simpa using h
      exact ⟨kws0, by simp [this], hm⟩
    | false =>
      rw [findLevel, if_neg (by simp [hm])] at h
      obtain ⟨kws, hmem, hk⟩ := ih lv h
      exact ⟨kws, List.mem_cons_of_mem _ hmem, hk⟩

theorem categorize_levels (s : String) :
    categorize_seniority (some s) ∈ (["Executive", "Senior", "Mid", "Junior"] : List String) := by
  cases hf : findLevel SENIORITY_KEYWORDS (lowerStr s) with
  | none => simp [categorize_seniority, hf]
  | some lv =>
    obtain ⟨kws, hmem, _⟩ := findLevel_mem _ _ _ hf
    have hc : categorize_seniority (some s) = lv := by simp [categorize_seniority, hf]
    rw [hc]
    simp only [SENIORITY_KEYWORDS, List.mem_cons, List.not_mem_nil, or_false,
      Prod.mk.injEq] at hmem
    rcases hmem with ⟨h, _⟩ | ⟨h, _⟩ | ⟨h, _⟩ | ⟨h, _⟩ <;> subst h <;> decide

/-- C6: `categorize_seniority` is total over title values: it returns
`"Unknown"` exactly when the title is absent; when the title is present and
some seniority keyword matches, it returns a level one of whose keywords
occurs as a substring of the lower-cased title (and that level is one of the
four); when the title is present and no keyword matches, it defaults to
`"Mid"`. -/
theorem categorize_seniority_total :
    (∀ t : Option String, categorize_seniority t = "Unknown" ↔ t = none)
  ∧ (∀ s : String, anyLevelMatches (lowerStr s) = true →
      ∃ kws, (categorize_seniority (some s), kws) ∈ SENIORITY_KEYWORDS
        ∧ levelMatches kws (lowerStr s) = true)
  ∧ (∀ s : String, anyLevelMatches (lowerStr s) = false →
      categorize_seniority (some s) = "Mid")
  ∧ (∀ s : String,
      categorize_seniority (some s) ∈ (["Executive", "Senior", "Mid", "Junior"] : List String)) := by
  refine ⟨?_, ?_, ?_, categorize_levels⟩
  · intro t
    cases t with
    | none => simp [categorize_seniority]
    | some s =>
      simp only [reduceCtorEq, iff_false]
      intro heq
      have := categorize_levels s
      rw [heq] at this
      revert this
      decide
  · intro s hany
    cases hf : findLevel SENIORITY_KEYWORDS (lowerStr s) with
    | none =>
      rw [findLevel_eq_none_iff] at hf
      rw [anyLevelMatches] at hany
      rw [hany] at hf
      cases hf
    | some lv =>
      obtain ⟨kws, hmem, hk⟩ := findLevel_mem _ _ _ hf
      have hc : categorize_seniority (some s) = lv := by simp [categorize_seniority, hf]
      exact ⟨kws, by rw [hc]; exact hmem, hk⟩
  · intro s hany
    have hf : findLevel SENIORITY_KEYWORDS (lowerStr s) = none :=
      (findLevel_eq_none_iff _ _).mpr hany
    simp [categorize_seniority, hf]

/-- Witness for C6: `"Senior Engineer"` matches a keyword and is classified
at a level with a matching keyword; `"Quantum Plumber"` matches no keyword
and defaults to `"Mid"`. -/
theorem categorize_seniority_total_witness :
    (∃ kws, (categorize_seniority (some "Senior Engineer"), kws) ∈ SENIORITY_KEYWORDS
      ∧ levelMatches kws (lowerStr "Senior Engineer") = true)
  ∧ categorize_seniority (some "Quantum Plumber") = "Mid" :=
  ⟨categorize_seniority_total.2.1 "Senior Engineer" (by decide),
   categorize_seniority_total.2.2.1 "Quantum Plumber" (by decide)⟩

/-- C10 (amended): `categorize_seniority` tests the levels in the fixed
order Executive, Senior, Mid, Junior and returns the level of the first
match. A title containing both `"junior"` and `"analyst"` is therefore
classified `"Mid"`, not `"Junior"`, PROVIDED no Executive or Senior keyword
also occurs (a title such as `"Chief Junior Analyst"` is classified
`"Executive"` instead); in particular `"Junior Data Analyst"` is classified
`"Mid"`. -/
theorem seniority_first_match_order :
    (∀ s : String, levelMatches executive_keywords (lowerStr s) = true →
        categorize_seniority (some s) = "Executive")
  ∧ (∀ s : String, levelMatches executive_keywords (lowerStr s) = false →
        levelMatches senior_keywords (lowerStr s) = true →
        categorize_seniority (some s) = "Senior")
  ∧ (∀ s : String, levelMatches executive_keywords (lowerStr s) = false →
        levelMatches senior_keywords (lowerStr s) = false →
        levelMatches mid_keywords (lowerStr s) = true →
        categorize_seniority (some s) = "Mid")
  ∧ (∀ s : String, levelMatches executive_keywords (lowerStr s) = false →
        levelMatches senior_keywords (lowerStr s) = false →
        levelMatches mid_keywords (lowerStr s) = false →
        levelMatches junior_keywords (lowerStr s) = true →
        categorize_seniority (some s) = "Junior")
  ∧ (∀ s : String, strContains (lowerStr s) "junior" = true →
        strContains (lowerStr s) "analyst" = true →
        levelMatches executive_keywords (lowerStr s) = false →
        levelMatches senior_keywords (lowerStr s) = false →
        categorize_seniority (some s) = "Mid" ∧ categorize_seniority (some s) ≠ "Junior")
  ∧ categorize_seniority (some "Junior Data Analyst") = "Mid" := by
  have hE : ∀ s : String, levelMatches executive_keywords (lowerStr s) = true →
      categorize_seniority (some s) = "Executive" := by
    intro s h
    simp [categorize_seniority, SENIORITY_KEYWORDS, findLevel, h]
  have hS : ∀ s : String, levelMatches executive_keywords (lowerStr s) = false →
      levelMatches senior_keywords (lowerStr s) = true →
      categorize_seniority (some s) = "Senior" := by
    intro s h1 h2
    simp [categorize_seniority, SENIORITY_KEYWORDS, findLevel, h1, h2]
  have hM : ∀ s : String, levelMatches executive_keywords (lowerStr s) = false →
      levelMatches senior_keywords (lowerStr s) = false →
      levelMatches mid_keywords (lowerStr s) = true →
      categorize_seniority (some s) = "Mid" := by
    intro s h1 h2 h3
    simp [categorize_seniority, SENIORITY_KEYWORDS, findLevel, h1, h2, h3]
  refine ⟨hE, hS, hM, ?_, ?_, by decide⟩
  · intro s h1 h2 h3 h4
    simp [categorize_seniority, SENIORITY_KEYWORDS, findLevel, h1, h2, h3, h4]
  · intro s hjun han h1 h2
    have h3 : levelMatches mid_keywords (lowerStr s) = true := by
      simp [levelMatches, mid_keywords, han]
    have := hM s h1 h2 h3
    exact ⟨this, by rw [this]; decide⟩

/-- Counterexample to C10 as frozen: the claim asserts every title
containing both `"junior"` and `"analyst"` is classified `"Mid"`, but
`"Chief Junior Analyst"` contains both and is classified `"Executive"`
because the Executive keyword `"chief"` is tested first. -/
theorem seniority_junior_analyst_counterexample :
    strContains (lowerStr "Chief Junior Analyst") "junior" = true
  ∧ strContains (lowerStr "Chief Junior Analyst") "analyst" = true
  ∧ categorize_seniority (some "Chief Junior Analyst") = "Executive"
  ∧ ¬ categorize_seniority (some "Chief Junior Analyst") = "Mid" :=
  ⟨by decide, by decide, by decide, by decide⟩

/-- Witness for C10 (amended) at the concrete title `"Junior Data
Analyst"`. -/
theorem seniority_first_match_order_witness :
    categorize_seniority (some "Junior Data Analyst") = "Mid"
  ∧ categorize_seniority (some "Junior Data Analyst") ≠ "Junior" :=
  seniority_first_match_order.2.2.2.2.1 "Junior Data Analyst"
    (by decide) (by decide) (by decide) (by decide)

theorem classifyStatus_abort_iff {J : Type} (e : PageEvent J) :
    classifyStatus e = StepResult.abort ↔ statusOf e = some 401 := by
  cases e with
  | resp s b =>
    simp only [classifyStatus, statusOf, Option.some.injEq]
    by_cases h200 : s = 200
    · subst h200
      cases b <;> simp
    · by_cases h401 : s = 401
      · subst h401; simp
      · by_cases h403 : s = 403
        · subst h403; simp [h200]
        · simp [h200, h401, h403]
  | timeout => simp [classifyStatus, statusOf]
  | connError => simp [classifyStatus, statusOf]
  | reqError => simp [classifyStatus, statusOf]

theorem classifyStatus_stop_iff {J : Type} (e : PageEvent J) :
    classifyStatus e = StepResult.stop ↔ statusOf e = some 403 := by
  cases e with
  | resp s b =>
    simp only [classifyStatus, statusOf, Option.some.injEq]
    by_cases h200 : s = 200
    · subst h200
      cases b <;> simp
    · by_cases h401 : s = 401
      · subst h401; simp [h200]
      · by_cases h403 : s = 403
        · subst h403; simp [h200, h401]
        · simp [h200, h401, h403]
  | timeout => simp [classifyStatus, statusOf]
  | connError => simp [classifyStatus, statusOf]
  | reqError => simp [classifyStatus, statusOf]

theorem abort_index_shift (A S : Nat → Prop) (p n : Nat) (hA : ¬ A p) (hS : ¬ S p) :
    (∃ k, k < n ∧ A (p+1+k) ∧ ∀ j, j < k → ¬ S (p+1+j)) ↔
    (∃ k, k < n+1 ∧ A (p+k) ∧ ∀ j, j < k → ¬ S (p+j)) := by
  constructor
  · rintro ⟨k, hk, ha, hs⟩
    refine ⟨k+1, by omega, ?_, ?_⟩
    · have h : p + (k+1) = p+1+k := by omega
      rw [h]; exact ha
    · intro j hj
      match j with
      | 0 => simpa using hS
      | j+1 =>
        have h : p + (j+1) = p+1+j := by omega
        rw [h]
        exact hs j (by omega)
  · rintro ⟨k, hk, ha, hs⟩
    match k with
    | 0 => exact absurd (by simpa using ha) hA
    | k+1 =>
      refine ⟨k, by omega, ?_, ?_⟩
      · have h : p+1+k = p + (k+1) := by omega
        rw [h]; exact ha
      · intro j hj
        have h : p+1+j = p + (j+1) := by omega
        rw [h]
        exact hs (j+1) (by omega)

theorem searchFrom_error_iff {J : Type} (env : Nat → PageEvent J × PageEvent J) :
    ∀ (n p : Nat) (jobs : List J) (failed : List Nat),
      exceptIsError (searchFrom env p n jobs failed) = true ↔
        ∃ k, k < n ∧ classifyPage (env (p+k)) = StepResult.abort ∧
          ∀ j, j < k → classifyPage (env (p+j)) ≠ StepResult.stop := by
  intro n
  induction n with
  | zero =>
    intro p jobs failed
    simp [searchFrom, exceptIsError]
  | succ n ih =>
    intro p jobs failed
    rw [searchFrom]
    cases hc : classifyPage (env p) with
    | ok js =>
      rw [ih (p+1) (jobs ++ js) failed]
      have hA : ¬ classifyPage (env p) = StepResult.abort := by rw [hc]; intro h; cases h
      have hS : ¬ classifyPage (env p) = StepResult.stop := by rw [hc]; intro h; cases h
      exact abort_index_shift (fun x => classifyPage (env x) = StepResult.abort)
        (fun x => classifyPage (env x) = StepResult.stop) p n hA hS
    | failed =>
      rw [ih (p+1) jobs (failed ++ [p])]
      have hA : ¬ classifyPage (env p) = StepResult.abort := by rw [hc]; intro h; cases h
      have hS : ¬ classifyPage (env p) = StepResult.stop := by rw [hc]; intro h; cases h
      exact abort_index_shift (fun x => classifyPage (env x) = StepResult.abort)
        (fun x => classifyPage (env x) = StepResult.stop) p n hA hS
    | abort =>
      refine iff_of_true (by simp [exceptIsError]) ?_
      exact ⟨0, by omega, by simpa using hc, fun j hj => absurd hj (by omega)⟩
    | stop =>
      refine iff_of_false (by simp [exceptIsError]) ?_
      rintro ⟨k, hk, ha, hs⟩
      match k with
      | 0 =>
        rw [Nat.add_zero] at ha
        rw [hc] at ha
        cases ha
      | k+1 =>
        have h0 := hs 0 (by omega)
        rw [Nat.add_zero] at h0
        exact h0 hc

theorem searchFrom_ok_extends {J : Type} (env : Nat → PageEvent J × PageEvent J) :
    ∀ (n p : Nat) (jobs : List J) (failed : List Nat) (js : List J) (fs : List Nat),
      searchFrom env p n jobs failed = Except.ok (js, fs) → ∃ rest, js = jobs ++ rest := by
  intro n
  induction n with
  | zero =>
    intro p jobs failed js fs h
    rw [searchFrom] at h
    obtain ⟨h1, _⟩ : jobs = js ∧ failed = fs := by
      simpa [Prod.ext_iff] using h
    exact ⟨[], by simp [h1]⟩
  | succ n ih =>
    intro p jobs failed js fs h
    rw [searchFrom] at h
    cases hc : classifyPage (env p) <;> rw [hc] at h
    case ok js0 =>
      obtain ⟨rest, hr⟩ := ih (p+1) (jobs ++ js0) failed js fs h
      exact ⟨js0 ++ rest, by rw [hr, List.append_assoc]⟩
    case failed =>
      exact ih (p+1) jobs (failed ++ [p]) js fs h
    case abort => cases h
    case stop =>
      obtain ⟨h1, _⟩ : jobs = js ∧ failed = fs := by
        simpa [Prod.ext_iff] using h
      exact ⟨[], by simp [h1]⟩

/-- C1: with both credentials present the fetched run aborts (raises
`ValueError`) exactly when some issued page request is classified 401 with
no earlier 403 stopping the loop first; classification is 401 precisely
when the response reaching the status checks has HTTP status 401; every
page classified as failed is appended to the failed-pages list and
iteration continues with the next page; and whenever the run returns
normally, the jobs collected before any page are a prefix of the returned
list. Constructing the client with a missing (falsy) API key or API host
raises `ValueError`. -/
theorem search_jobs_abort_only_on_401 :
    (∀ key host : Option String, envTruthy key = false ∨ envTruthy host = false →
        JSearchClient.init key host = Except.error "API credentials not found in .env file")
  ∧ (∀ (J : Type) (p : PageEvent J × PageEvent J),
        classifyPage p = StepResult.abort ↔ statusOf (fetchPage p).1 = some 401)
  ∧ (∀ (J : Type) (fetch : String → Nat → PageEvent J × PageEvent J)
        (query : String) (numPages page : Nat),
        exceptIsError (search_jobs fetch query numPages page) = true ↔
          ∃ k, k < numPages ∧ classifyPage (fetch query (page + k)) = StepResult.abort ∧
            ∀ j, j < k → classifyPage (fetch query (page + j)) ≠ StepResult.stop)
  ∧ (∀ (J : Type) (env : Nat → PageEvent J × PageEvent J) (p n : Nat)
        (jobs : List J) (failed : List Nat),
        classifyPage (env p) = StepResult.failed →
          searchFrom env p (n+1) jobs failed = searchFrom env (p+1) n jobs (failed ++ [p]))
  ∧ (∀ (J : Type) (env : Nat → PageEvent J × PageEvent J) (n p : Nat)
        (jobs : List J) (failed : List Nat) (js : List J) (fs : List Nat),
        searchFrom env p n jobs failed = Except.ok (js, fs) → ∃ rest, js = jobs ++ rest) := by
  refine ⟨?_, ?_, ?_, ?_, ?_⟩
  · intro key host h
    rcases h with h | h <;> simp [JSearchClient.init, h]
  · intro J p
    exact classifyStatus_abort_iff (fetchPage p).1
  · intro J fetch query numPages page
    exact searchFrom_error_iff (fetch query) numPages page [] []
  · intro J env p n jobs failed h
    rw [searchFrom, h]
  · intro J env n p jobs failed js fs h
    exact searchFrom_ok_extends env n p jobs failed js fs h

/-- Witness for C1: a missing key raises; a 401 page makes the run abort; a
timed-out page is appended to the failed list and the loop continues; a
finished run extends the collected jobs. -/
theorem search_jobs_abort_only_on_401_witness :
    JSearchClient.init none (some "host") = Except.error "API credentials not found in .env file"
  ∧ exceptIsError (search_jobs
      (fun _ _ => ((PageEvent.resp 401 none : PageEvent Nat), PageEvent.timeout)) "q" 1 1) = true
  ∧ searchFrom (fun _ => ((PageEvent.timeout : PageEvent Nat), PageEvent.timeout)) 1 1 [] []
      = searchFrom (fun _ => ((PageEvent.timeout : PageEvent Nat), PageEvent.timeout)) 2 0 [] ([] ++ [1])
  ∧ ∃ rest : List Nat, [2, 3] = [2, 3] ++ rest := by
  refine ⟨search_jobs_abort_only_on_401.1 none (some "host") (Or.inl rfl), ?_, ?_, ?_⟩
  · exact (search_jobs_abort_only_on_401.2.2.1 Nat
      (fun _ _ => (.resp 401 none, .timeout)) "q" 1 1).mpr
      ⟨0, by omega, rfl, fun j hj => absurd hj (by omega)⟩
  · exact search_jobs_abort_only_on_401.2.2.2.1 Nat
      (fun _ => (.timeout, .timeout)) 1 0 [] [] rfl
  · exact search_jobs_abort_only_on_401.2.2.2.2 Nat
      (fun _ => (.resp 200 (some [2, 3]), .timeout)) 0 1 [2, 3] [] [2, 3] [] rfl

/-- C2: a first response with HTTP status 429 makes the client sleep 2
seconds and re-issue the identical request exactly once (two GETs in
total); the retried response is then classified by the ordinary status
rules — in particular a retried 429 falls into the ordinary non-200 branch
and fails the page, so no second retry ever happens; any first response
whose status is not 429 is classified directly after a single GET. -/
theorem search_jobs_retry_once_on_429 :
    (∀ (J : Type) (b : Option (List J)) (r : PageEvent J),
        fetchPage (PageEvent.resp 429 b, r) = (r, 2, 2))
  ∧ (∀ (J : Type) (p : PageEvent J × PageEvent J),
        statusOf p.1 ≠ some 429 → fetchPage p = (p.1, 1, 0))
  ∧ (∀ (J : Type) (b : Option (List J)) (r : PageEvent J),
        classifyPage (PageEvent.resp 429 b, r) = classifyStatus r)
  ∧ (∀ (J : Type) (b : Option (List J)),
        classifyStatus (PageEvent.resp 429 b) = StepResult.failed)
  ∧ (∀ (J : Type) (p : PageEvent J × PageEvent J),
        (fetchPage p).2.1 = 1 ∨ (fetchPage p).2.1 = 2) := by
  refine ⟨?_, ?_, ?_, ?_, ?_⟩
  · intro J b r
    simp [fetchPage, statusOf]
  · intro J p h
    simp [fetchPage, h]
  · intro J b r
    simp [classifyPage, fetchPage, statusOf]
  · intro J b
    simp [classifyStatus]
  · intro J p
    by_cases h : statusOf p.1 = some 429 <;> simp [fetchPage, h]

/-- Witness for C2: a 429 first response is retried once (2 GETs, 2 seconds
slept) and the retried response is classified ordinarily; a non-429 first
response is not retried; a retried 429 fails the page. -/
theorem search_jobs_retry_once_on_429_witness :
    fetchPage ((PageEvent.resp 429 none : PageEvent Nat), PageEvent.resp 200 (some [7]))
      = (PageEvent.resp 200 (some [7]), 2, 2)
  ∧ fetchPage ((PageEvent.timeout : PageEvent Nat), PageEvent.resp 200 (some [7]))
      = (PageEvent.timeout, 1, 0)
  ∧ classifyPage ((PageEvent.resp 429 none : PageEvent Nat), PageEvent.resp 429 none)
      = StepResult.failed :=
  ⟨search_jobs_retry_once_on_429.1 Nat none (PageEvent.resp 200 (some [7])),
   search_jobs_retry_once_on_429.2.1 Nat (PageEvent.timeout, PageEvent.resp 200 (some [7]))
     (by decide),
   (search_jobs_retry_once_on_429.2.2.1 Nat none (PageEvent.resp 429 none)).trans
     (search_jobs_retry_once_on_429.2.2.2.1 Nat none)⟩

/-- C3: a page (after its possible single 429 retry) is classified as a
stop exactly when the response reaching the status checks has HTTP status
403, and a stop makes `search_jobs` return the jobs collected so far and
the failed pages so far unchanged, without fetching any further page and
without raising. -/
theorem search_jobs_stop_on_403 :
    (∀ (J : Type) (p : PageEvent J × PageEvent J),
        classifyPage p = StepResult.stop ↔ statusOf (fetchPage p).1 = some 403)
  ∧ (∀ (J : Type) (env : Nat → PageEvent J × PageEvent J) (p n : Nat)
        (jobs : List J) (failed : List Nat),
        classifyPage (env p) = StepResult.stop →
          searchFrom env p (n+1) jobs failed = Except.ok (jobs, failed)) := by
  constructor
  · intro J p
    exact classifyStatus_stop_iff (fetchPage p).1
  · intro J env p n jobs failed h
    rw [searchFrom, h]

/-- Witness for C3: a 403 first response stops a 3-page run immediately,
returning the previously collected jobs and failed pages unchanged. -/
theorem search_jobs_stop_on_403_witness :
    (classifyPage ((PageEvent.resp 403 none : PageEvent Nat), PageEvent.timeout) = StepResult.stop
      ↔ statusOf (fetchPage ((PageEvent.resp 403 none : PageEvent Nat), PageEvent.timeout)).1
          = some 403)
  ∧ searchFrom (fun _ => ((PageEvent.resp 403 none : PageEvent Nat), PageEvent.timeout)) 1 3 [5] [9]
      = Except.ok ([5], [9]) :=
  ⟨search_jobs_stop_on_403.1 Nat (PageEvent.resp 403 none, PageEvent.timeout),
   search_jobs_stop_on_403.2 Nat (fun _ => (PageEvent.resp 403 none, PageEvent.timeout))
     1 2 [5] [9] rfl⟩

theorem save_jobs_to_json_cons_eq (x : JVal) (xs : JArr) :
    save_jobs_to_json (JArr.cons x xs)
      = ("[\n" ++ dumpItems 1 (JArr.cons x xs) ++ "\n" ++ pad 0) ++ "]" := rfl

/-- C9 (amended): `save_jobs_to_json` writes the raw records as a single
JSON array (the content starts with `[` and ends with `]`), pretty-printed
with `indent=2`: the empty record list serializes to the newline-free `[]`,
and the serialization of every non-empty record list contains newline
characters. -/
theorem save_jobs_to_json_indent2_format :
    save_jobs_to_json JArr.nil = "[]"
  ∧ (∀ (x : JVal) (xs : JArr), '\n' ∈ (save_jobs_to_json (JArr.cons x xs)).data)
  ∧ (∀ jobs : JArr, (save_jobs_to_json jobs).data.head? = some '[')
  ∧ (∀ jobs : JArr, (save_jobs_to_json jobs).data.getLast? = some ']') := by
  refine ⟨rfl, ?_, ?_, ?_⟩
  · intro x xs
    rw [save_jobs_to_json_cons_eq]
    have h : '\n' ∈ ("[\n").data := by decide
    simp only [String.data_append, List.mem_append]
    tauto
  · intro jobs
    cases jobs with
    | nil => rfl
    | cons x xs => rfl
  · intro jobs
    cases jobs with
    | nil => decide
    | cons x xs =>
      rw [save_jobs_to_json_cons_eq, String.data_append,
        List.getLast?_append_of_ne_nil _ (by decide)]
      decide

/-- Counterexample to C9 as frozen: the claim says the written JSON array is
newline-free for every list of records, but `json.dump` is called with
`indent=2`, so already a one-record list serializes with newlines. -/
theorem save_jobs_to_json_newline_counterexample :
    save_jobs_to_json (JArr.cons (JVal.obj (JObj.cons "job_id" (JVal.str "1") JObj.nil)) JArr.nil)
      = "[\n  \x7b\n    \"job_id\": \"1\"\n  \x7d\n]"
  ∧ ((save_jobs_to_json
        (JArr.cons (JVal.obj (JObj.cons "job_id" (JVal.str "1") JObj.nil)) JArr.nil)).data.all
      (fun c => c != '\n')) = false :=
  ⟨by rfl, by rfl⟩

theorem validateTable_mem {rows : List JobRow} {v : ValidatedRow}
    (hv : v ∈ validateTable rows) : ∃ r ∈ rows, validateRow r = v := by
  simp only [validateTable] at hv
  obtain ⟨r, hr, hvr⟩ := List.mem_map.mp hv
  refine ⟨r, ?_, hvr⟩
  split at hr
  · rw [drop_duplicates] at hr
    exact List.mem_of_mem_filter ((dropDupAux_sublist (fun q => q.id) _ []).subset hr)
  · exact List.mem_of_mem_filter hr

/-- C8: both output files of the validation stage serialize the same table,
and every row of that table carries all the derived columns with their
defining values: `avg_salary` is the midpoint `(min_salary + max_salary)/2`
(absent when either operand is absent), `salary_range` is
`max_salary - min_salary`, `skills` is the extraction from the row's
description, the five `has_<category>` booleans (one per skill category,
named `has_` plus the lower-cased underscored category) hold exactly when
some extracted skill belongs to the category, `location_standardized` is
the `city, state` string when both parts are present, and `seniority_level`
is the categorization of the row's title. -/
theorem validated_tables_derived_columns :
    (∀ raws : List RawJob, validatedCsvTable raws = validatedJsonTable raws)
  ∧ (∀ (raws : List RawJob) (v : ValidatedRow), v ∈ validatedCsvTable raws →
        v.avg_salary = v.min_salary.bind (fun a => v.max_salary.map (fun b => (a + b) / 2))
      ∧ v.salary_range = v.min_salary.bind (fun a => v.max_salary.map (fun b => b - a))
      ∧ v.skills = extract_skills v.description
      ∧ v.has_flags = SKILL_CATEGORIES.map
          (fun cat => (categoryColName cat.1, hasCategorySkill cat.2 v.skills))
      ∧ v.has_flags.map Prod.fst =
          ["has_programming_languages", "has_data_tools_&_platforms", "has_databases",
           "has_soft_skills", "has_analysis_&_statistics"]
      ∧ v.location_standardized = locationStandardized v.city v.state
      ∧ v.seniority_level = categorize_seniority v.title) := by
  refine ⟨fun _ => rfl, ?_⟩
  intro raws v hv
  obtain ⟨r, hr, hvr⟩ := validateTable_mem hv
  obtain ⟨raw, _, hraw⟩ := List.mem_map.mp hr
  subst hvr
  subst hraw
  refine ⟨?_, ?_, rfl, rfl, rfl, rfl, rfl⟩
  · show avgSalaryOf raw.job_min_salary raw.job_max_salary
      = raw.job_min_salary.bind (fun a => raw.job_max_salary.map (fun b => (a + b) / 2))
    cases hmn : raw.job_min_salary <;> cases hmx : raw.job_max_salary <;> simp [avgSalaryOf]
    ring
  · show salaryRangeOf raw.job_min_salary raw.job_max_salary
      = raw.job_min_salary.bind (fun a => raw.job_max_salary.map (fun b => b - a))
    cases hmn : raw.job_min_salary <;> cases hmx : raw.job_max_salary <;> simp [salaryRangeOf]

/-- Witness for C8 at the concrete record `sampleRaw`: the CSV and JSON
tables agree, and the single validated row has the derived columns with
their defining values. -/
theorem validated_tables_derived_columns_witness :
    validatedCsvTable [sampleRaw] = validatedJsonTable [sampleRaw]
  ∧ ((validateRow (cleanRow sampleRaw)).seniority_level
       = categorize_seniority (validateRow (cleanRow sampleRaw)).title
     ∧ (validateRow (cleanRow sampleRaw)).has_flags.map Prod.fst =
         ["has_programming_languages", "has_data_tools_&_platforms", "has_databases",
          "has_soft_skills", "has_analysis_&_statistics"]) := by
  have hmem : validateRow (cleanRow sampleRaw) ∈ validatedCsvTable [sampleRaw] := by
    exact List.mem_singleton_self _
  have h := validated_tables_derived_columns.2 [sampleRaw] (validateRow (cleanRow sampleRaw)) hmem
  exact ⟨validated_tables_derived_columns.1 [sampleRaw], h.2.2.2.2.2.2, h.2.2.2.2.1⟩
